import Mathlib

/-!
Shallow embedding of the pr-review review-orchestration engine
(src/src/review.ts, src/src/cli.ts and the agents module appended to it).

The external agent-execution library (createAgentSession / SessionManager /
session.prompt from the pi-coding-agent package) is not part of this
repository; its observable behaviour is threaded in as explicit environment
parameters (per-task prompt outcomes, completion order, durable backing-file
content), following the black-box contract the code relies on: a session is
created, one prompt is sent, streamed text fragments are accumulated in
production order, and a durable session appends its completed turn to its
backing file.
-/

namespace PrReview

/-- Agent descriptor, from agents.ts: `interface AgentDefinition`. -/
structure AgentDefinition where
  name : String
  description : String
  systemPrompt : String
deriving DecidableEq

/-- agents.ts: `AGENTS.bug`. -/
def bugAgent : AgentDefinition :=
  { name := "Bug Hunter"
    description := "Finds logic bugs, edge cases, and incorrect assumptions"
    systemPrompt := "You are an expert code reviewer focused on finding bugs and logic errors.\n\nYou will receive a git diff. Your job is to find:\n- Logic bugs and incorrect assumptions\n- Edge cases that aren\x27t handled\n- Off-by-one errors, null/undefined risks\n- Race conditions or ordering issues\n- Incorrect use of APIs or libraries\n\nIMPORTANT: You have read-only access to the codebase. When the diff is ambiguous or you need more context, USE YOUR TOOLS to read the surrounding code, check function signatures, look at types, and understand the broader context. Don\x27t guess — look.\n\nFor each issue found, provide:\n- The file and approximate location\n- What the bug is\n- Why it\x27s a problem (what could go wrong)\n- A suggested fix\n\nIf you find no issues, say so briefly. Don\x27t invent problems.\n\nBe specific and actionable. Output your findings in markdown." }

/-- agents.ts: `AGENTS.test`. -/
def testAgent : AgentDefinition :=
  { name := "Test Reviewer"
    description := "Checks test coverage and quality"
    systemPrompt := "You are an expert code reviewer focused on test coverage and quality.\n\nYou will receive a git diff. Your job is to:\n- Check if changed behavior is covered by existing tests\n- Evaluate whether new tests are sufficient\n- Identify untested edge cases and error paths\n- Assess test quality (are tests testing the right things, or just achieving coverage?)\n\nIMPORTANT: You have read-only access to the codebase. USE YOUR TOOLS to:\n- Read existing test files to understand current coverage\n- Read the implementation code to understand what should be tested\n- Find test utilities, fixtures, and patterns used in the project\n\nFor each finding, provide:\n- What\x27s missing or inadequate\n- Why it matters (what could slip through)\n- A concrete suggestion for what test to add\n\nIf test coverage looks good, say so briefly. Don\x27t invent problems.\n\nBe specific and actionable. Output your findings in markdown." }

/-- agents.ts: `AGENTS.impact`. -/
def impactAgent : AgentDefinition :=
  { name := "Impact Analyzer"
    description := "Traces cross-file dependencies and breaking changes"
    systemPrompt := "You are an expert code reviewer focused on cross-file impact analysis.\n\nYou will receive a git diff. Your job is to:\n- Trace how changes affect other parts of the codebase\n- Find callers of modified functions/methods\n- Check if type changes break downstream consumers\n- Identify changes to public APIs, interfaces, or contracts\n- Flag changes that might need coordinated updates elsewhere\n\nIMPORTANT: You have read-only access to the codebase. USE YOUR TOOLS aggressively to:\n- Grep for usages of modified functions, types, and constants\n- Read files that import from modified modules\n- Check interface implementations and type dependencies\n- Look at configuration files that might reference changed code\n\nFor each finding, provide:\n- What changed and what it affects\n- Which other files/modules are impacted\n- Whether the impact is handled or needs attention\n\nIf the changes are well-contained, say so briefly. Don\x27t invent problems.\n\nBe specific and actionable. Output your findings in markdown." }

/-- agents.ts: `AGENTS.quality`. -/
def qualityAgent : AgentDefinition :=
  { name := "Code Quality"
    description := "Reviews style, conventions, error handling, and maintainability"
    systemPrompt := "You are an expert code reviewer focused on code quality and conventions.\n\nYou will receive a git diff. Your job is to:\n- Check consistency with the project\x27s existing style and patterns\n- Review error handling (are errors caught, logged, propagated correctly?)\n- Assess naming, structure, and readability\n- Flag unnecessary complexity or over-engineering\n- Identify missing documentation where it\x27s needed\n\nIMPORTANT: You have read-only access to the codebase. USE YOUR TOOLS to:\n- Read neighboring code to understand project conventions\n- Check how similar patterns are handled elsewhere in the codebase\n- Look at existing error handling patterns\n- Read project configuration (linting rules, etc.) if relevant\n\nFor each finding, provide:\n- What the issue is\n- How the project typically handles this (with examples from the codebase)\n- A suggested improvement\n\nIf code quality looks good, say so briefly. Don\x27t invent problems.\n\nBe specific and actionable. Output your findings in markdown." }

/-- agents.ts: `AGENTS`, a record from agent id to its descriptor.
JS object string keys iterate in insertion order, so an ordered
association list is the faithful embedding. -/
def AGENTS : List (String × AgentDefinition) :=
  [("bug", bugAgent), ("test", testAgent), ("impact", impactAgent), ("quality", qualityAgent)]

/-- agents.ts: `SUMMARIZER_PROMPT`. -/
def SUMMARIZER_PROMPT : String :=
  "You are a senior engineer synthesizing multiple focused code reviews into a single coherent PR review.\n\nYou will receive the git diff followed by individual review reports from specialized reviewers (bug hunting, test coverage, impact analysis, code quality).\n\nYour job is to:\n1. Start with a brief summary of what the PR does (2-3 sentences)\n2. Synthesize findings across all reports into a single prioritized list\n3. Deduplicate — if multiple reviewers flagged the same issue, merge them\n4. Rank by severity: critical bugs > missing tests > breaking changes > style issues\n5. For each finding, keep the specific file locations and actionable suggestions\n6. End with a brief \"strengths\" section noting what was done well\n\nKeep the review concise and actionable. Use markdown formatting.\nIf the reviewers found no significant issues, say so — don\x27t pad the review."

/-- agents.ts: `ALL_AGENT_NAMES = Object.keys(AGENTS)`. -/
def ALL_AGENT_NAMES : List String := AGENTS.map Prod.fst

/-- agents.ts: `getAgent(name)`, i.e. the `AGENTS[name]` record lookup used by
review.ts (returns `undefined` for an unregistered id). -/
def getAgent (name : String) : Option AgentDefinition :=
  (AGENTS.find? (fun p => p.1 == name)).map Prod.snd

/-- Display name of a registered agent id, `AGENTS[id]?.name`. -/
def displayNameOf (name : String) : Option String :=
  (getAgent name).map AgentDefinition.name

/-- Concatenation of a list of streamed text fragments, modelling the
`result += delta` accumulation in the `session.subscribe` handlers. -/
def concatList : List String → String
  | [] => ""
  | s :: rest => s ++ concatList rest

/-- The error taxonomy of review.ts: each constructor corresponds to one
distinct throw site (`Unknown agent: ...` in runReview, model-resolution
failures in resolveModel, a failed `session.prompt` turn surfaced by the
external transport, and the missing-session error in continueReview). -/
inductive ReviewError where
  | unknownAgent (name : String)
  | noModelAvailable (message : String)
  | modelInvocationFailed (message : String)
  | noPreviousSession
deriving DecidableEq

/-- review.ts lines 133-136: the single user prompt of one agent task — the
diff fenced as a ```diff block, with the additional context appended only
when the string is non-empty (JS truthiness of `additionalContext`). -/
def subAgentPrompt (diff additionalContext : String) : String :=
  let prompt := "Here is the git diff to review:\n\n```diff\n" ++ diff ++ "\n```"
  if additionalContext = "" then prompt
  else prompt ++ "\n\nAdditional context from the reviewer:\n" ++ additionalContext

/-- review.ts lines 191-195: the synthesis prompt — the diff fenced first,
then each report of the collection in iteration order, labeled `## name`. -/
def summarizerPrompt (diff : String) (reports : List (String × String)) : String :=
  reports.foldl
    (fun acc nr => acc ++ ("## " ++ nr.1 ++ "\n\n" ++ nr.2 ++ "\n\n---\n\n"))
    ("Here is the git diff:\n\n```diff\n" ++ diff ++ "\n```\n\n" ++
      "Here are the individual review reports:\n\n")

/-- Observable trace of one `runSubAgent` call: the prompt it sent and the
report it returned (or the propagated failure). -/
structure SubAgentRun where
  promptSent : String
  result : Except ReviewError String

/-- review.ts `runSubAgent`: opens an ephemeral session, accumulates the
streamed fragments, sends the single prompt, returns the accumulated report.
`behavior` is the external model turn: an error message, or the streamed
fragments in production order. Session-construction configuration (cwd,
model, read-only tools, in-memory session manager) has no observable effect
on the values the claims mention and is not modelled. -/
def runSubAgent (agent : AgentDefinition) (diff additionalContext : String)
    (behavior : Except String (List String)) : SubAgentRun :=
  { promptSent := subAgentPrompt diff additionalContext
    result :=
      match behavior with
      | .error e => .error (.modelInvocationFailed e)
      | .ok fragments => .ok (concatList fragments) }

/-- State of one task created by the `agentNames.map(async (name) => ...)`
fan-out in review.ts lines 292-319. An unregistered id throws inside its own
async callback, producing an already-rejected promise with no session
started; a registered id synchronously enters `runSubAgent`, which starts a
conversation session, and settles later with its task's outcome. `idx` is
the task's position in the request, used to relate it to its completion
time. -/
inductive TaskState where
  | rejectedImmediately (agentId : String) (err : ReviewError)
  | pending (idx : Nat) (agentId : String) (displayName : String)
      (outcome : Except ReviewError String)

/-- The synchronous fan-out phase of review.ts lines 292-319: each selected
id in order is looked up in AGENTS; unknown ids throw `Unknown agent`,
registered ids start a sub-agent task. The task result pairs the agent
display name with the report (`return [agent.name, report]`, line 318). -/
def fanOutAux (diff additionalContext : String)
    (behaviors : Nat → Except String (List String)) :
    Nat → List String → List TaskState
  | _, [] => []
  | i, name :: rest =>
    (match getAgent name with
     | none => TaskState.rejectedImmediately name (ReviewError.unknownAgent name)
     | some agent =>
       TaskState.pending i name agent.name
         (runSubAgent agent diff additionalContext (behaviors i)).result)
    :: fanOutAux diff additionalContext behaviors (i + 1) rest

/-- Errors of tasks that rejected during the synchronous fan-out phase, in
request order. These promises are already settled when `Promise.all` runs,
so they win over any pending task's later rejection. -/
def immediateErrors (tasks : List TaskState) : List ReviewError :=
  tasks.filterMap fun t =>
    match t with
    | .rejectedImmediately _ e => some e
    | _ => none

/-- The pending tasks that eventually reject, each tagged with its request
index. -/
def pendingFailures (tasks : List TaskState) : List (Nat × ReviewError) :=
  tasks.filterMap fun t =>
    match t with
    | .pending i _ _ (.error e) => some (i, e)
    | _ => none

/-- The `[displayName, report]` pairs of the successful tasks, in request
order — the array `Promise.all` resolves with when every task succeeds. -/
def okResults (tasks : List TaskState) : List (String × String) :=
  tasks.filterMap fun t =>
    match t with
    | .pending _ _ dn (.ok r) => some (dn, r)
    | _ => none

/-- The ids whose task reached `createAgentSession`, i.e. for which a
conversation session was started, in fan-out order. -/
def startedAgents (tasks : List TaskState) : List String :=
  tasks.filterMap fun t =>
    match t with
    | .pending _ agentId _ _ => some agentId
    | _ => none

/-- Among the pending failures, the one that settles first under the given
completion-time assignment — the rejection `Promise.all` observes. -/
def earliestFailure (priority : Nat → Nat) :
    List (Nat × ReviewError) → Option (Nat × ReviewError)
  | [] => none
  | f :: rest =>
    match earliestFailure priority rest with
    | none => some f
    | some g => if priority f.1 ≤ priority g.1 then some f else some g

/-- The join `await Promise.all(agentPromises)` (review.ts line 321): rejects with the
first settled rejection — an already-rejected unknown-agent promise first
(request order), otherwise the pending failure with the earliest completion
time; resolves with the results array in request order when all succeed. -/
def promiseAll (tasks : List TaskState) (priority : Nat → Nat) :
    Except ReviewError (List (String × String)) :=
  match (immediateErrors tasks).head? with
  | some e => .error e
  | none =>
    match earliestFailure priority (pendingFailures tasks) with
    | some f => .error f.2
    | none => .ok (okResults tasks)

/-- One insertion step of the JS `Map` constructor: a duplicate key keeps its
first insertion position and takes the latest value; a fresh key is appended. -/
def jsMapInsert (m : List (String × String)) (k v : String) :
    List (String × String) :=
  if m.any (fun p => p.1 == k) then
    m.map (fun p => if p.1 == k then (k, v) else p)
  else m ++ [(k, v)]

/-- The `new Map(results)` construction (review.ts line 322): insertion-ordered map built from
the entry list. -/
def jsMapOfList (l : List (String × String)) : List (String × String) :=
  l.foldl (fun m kv => jsMapInsert m kv.1 kv.2) []

/-- The invocation of the Synthesis Stage: the diff and the Report Collection
handed to `runSummarizer`, together with the synthesis prompt it builds from
them. -/
structure SummarizerCall where
  diff : String
  reports : List (String × String)
  prompt : String
deriving DecidableEq

/-- Observable outcome of one `runReview` call: which agents got a
conversation session started, and either the propagated error or the
Synthesis Stage invocation. -/
structure ReviewRun where
  startedSessions : List String
  result : Except ReviewError SummarizerCall

/-- review.ts `runReview` (lines 256-346): resolve the model, fan out one
concurrent sub-agent task per selected id, join with `Promise.all`, build
the report Map from the results, and invoke the summarizer.
`modelResolution` is the outcome of `resolveModel`; `behaviors i` is the
external model turn of task `i`; `priority i` is task `i`'s completion time
(the nondeterministic completion order). Spinner and verbose stderr output
are excluded collaborators. -/
def runReview (agentNames : List String) (diff additionalContext : String)
    (modelResolution : Except String Unit)
    (behaviors : Nat → Except String (List String))
    (priority : Nat → Nat) : ReviewRun :=
  match modelResolution with
  | .error e => { startedSessions := [], result := .error (.noModelAvailable e) }
  | .ok _ =>
    let tasks := fanOutAux diff additionalContext behaviors 0 agentNames
    { startedSessions := startedAgents tasks
      result :=
        match promiseAll tasks priority with
        | .error e => .error e
        | .ok results =>
          let reports := jsMapOfList results
          .ok { diff := diff, reports := reports
                prompt := summarizerPrompt diff reports } }

/-- The collection an all-successful review hands to synthesis, spelled
directly from the request: one `(displayName, report)` entry per selected
agent, in `selectedAgentIds` order, independent of completion order. -/
def requestOrderAux (frags : Nat → List String) :
    Nat → List String → List (String × String)
  | _, [] => []
  | i, name :: rest =>
    (match getAgent name with
     | none => []
     | some agent => [(agent.name, concatList (frags i))])
    ++ requestOrderAux frags (i + 1) rest

/-- The request-order collection, `requestOrderAux` started at index 0. -/
def requestOrderReports (frags : Nat → List String)
    (agentNames : List String) : List (String × String) :=
  requestOrderAux frags 0 agentNames

/-- One completed exchange of a durable conversation: the user prompt sent
and the assistant response. The on-disk record schema is owned by the
external session manager; the core only relies on the log round-tripping
through close and reopen, so a turn list is the faithful abstraction. -/
structure Turn where
  prompt : String
  response : String
deriving DecidableEq

/-- Content of one durable conversation file: its append-only log of turns. -/
abbrev SessionLog : Type := List Turn

/-- The filesystem as seen through the session files the code touches:
`none` is an absent file (`fs.existsSync` false). -/
abbrev FS : Type := String → Option SessionLog

/-- Write (or remove, with `none`) one file, leaving every other path
untouched. -/
def setFile (fs : FS) (p : String) (c : Option SessionLog) : FS :=
  fun q => if q = p then c else fs q

/-- review.ts line 21: `path.join(os.homedir(), ".cache", "pr-review")`,
with the home directory rendered as `~`. -/
def SESSION_DIR : String := "~/.cache/pr-review"

/-- review.ts line 22: the well-known session pointer
`path.join(SESSION_DIR, "last-session.jsonl")`. -/
def SESSION_FILE : String := SESSION_DIR ++ "/last-session.jsonl"

/-- External behaviour surrounding one `runSummarizer` call:
`originalFile` is what `sessionManager.getSessionFile()` reports for the
freshly created durable session; `promptOutcome` is the synthesis turn
(error message, or the streamed response); `backingAfter` is the content of
the internal backing file once the prompt attempt has finished (`none` when
the external session manager materialized no file there). -/
structure SummarizerEnv where
  originalFile : Option String
  promptOutcome : Except String String
  backingAfter : Option SessionLog

/-- Observable outcome of one `runSummarizer` call: the final filesystem,
the synthesis prompt it sent, and success or the propagated error. -/
structure SummarizerRun where
  fs : FS
  promptSent : String
  result : Except ReviewError Unit

/-- review.ts `runSummarizer` (lines 145-204): create the durable session in
SESSION_DIR, remember its backing file, build the synthesis prompt, await
the turn, and only then — when a backing path was reported and the file
exists — copy it over the well-known SESSION_FILE pointer. A failed turn
throws before the copy, so the pointer is never touched on failure.
(`fs.mkdirSync(SESSION_DIR)` and the stdout streaming subscription have no
effect on the modelled file map.) -/
def runSummarizer (fs0 : FS) (diff : String) (reports : List (String × String))
    (env : SummarizerEnv) : SummarizerRun :=
  let promptSent := summarizerPrompt diff reports
  let fs1 :=
    match env.originalFile with
    | some p => setFile fs0 p env.backingAfter
    | none => fs0
  match env.promptOutcome with
  | .error e => { fs := fs1, promptSent := promptSent
                  result := .error (.modelInvocationFailed e) }
  | .ok _ =>
    match env.originalFile with
    | some p =>
      if (fs1 p).isSome then
        { fs := setFile fs1 SESSION_FILE (fs1 p), promptSent := promptSent
          result := .ok () }
      else { fs := fs1, promptSent := promptSent, result := .ok () }
    | none => { fs := fs1, promptSent := promptSent, result := .ok () }

/-- External behaviour surrounding one `continueReview` call: the outcome of
`resolveModel` and of the follow-up prompt turn (error message, or the
streamed response text). -/
structure ContinueEnv where
  modelResolution : Except String Unit
  promptOutcome : Except String String

/-- Observable outcome of one `continueReview` call: the final filesystem,
the prompts actually sent to the model, and success or the propagated
error. -/
structure ContinueRun where
  fs : FS
  promptsSent : List String
  result : Except ReviewError Unit

/-- review.ts `continueReview` (lines 206-254): fail with the
no-previous-session error when the well-known pointer file is absent —
before any model call; otherwise resolve the model, reopen the durable
session directly at SESSION_FILE (`SessionManager.open(SESSION_FILE, ...)`),
send the message, and let the completed turn be appended in place to the
same file, with no copy or promotion step afterward. A failed turn leaves
the modelled log unchanged (whether a real failed append leaves a dangling
partial record is owned by the external session manager and not relied on
here). -/
def continueReview (fs0 : FS) (message : String) (env : ContinueEnv) :
    ContinueRun :=
  match fs0 SESSION_FILE with
  | none => { fs := fs0, promptsSent := [], result := .error .noPreviousSession }
  | some log =>
    match env.modelResolution with
    | .error e => { fs := fs0, promptsSent := []
                    result := .error (.noModelAvailable e) }
    | .ok _ =>
      match env.promptOutcome with
      | .error e => { fs := fs0, promptsSent := [message]
                      result := .error (.modelInvocationFailed e) }
      | .ok response =>
        { fs := setFile fs0 SESSION_FILE
            (some (log ++ [{ prompt := message, response := response }]))
          promptsSent := [message], result := .ok () }

instance (ε α : Type) [DecidableEq ε] [DecidableEq α] : DecidableEq (Except ε α) := fun a b =>
  match a, b with
  | .error e, .error f =>
    if h : e = f then isTrue (by rw [h]) else isFalse (fun hc => h (Except.error.inj hc))
  | .ok x, .ok y =>
    if h : x = y then isTrue (by rw [h]) else isFalse (fun hc => h (Except.ok.inj hc))
  | .error _, .ok _ => isFalse (fun hc => Except.noConfusion hc)
  | .ok _, .error _ => isFalse (fun hc => Except.noConfusion hc)

lemma string_append_empty (s : String) : s ++ "" = s := by
  exact String.append_empty s

lemma foldl_append_sections (sec : String × String → String) :
    ∀ (l : List (String × String)) (acc : String),
      l.foldl (fun a nr => a ++ sec nr) acc = acc ++ concatList (l.map sec) := by
  intro l
  induction l with
  | nil => intro acc; simp [concatList]
  | cons x rest ih =>
    intro acc
    simp [List.foldl_cons, ih, concatList, String.append_assoc]

lemma jsMapOfList_aux :
    ∀ (l acc : List (String × String)), ((acc ++ l).map Prod.fst).Nodup →
      l.foldl (fun m kv => jsMapInsert m kv.1 kv.2) acc = acc ++ l := by
  intro l
  induction l with
  | nil => intro acc _; simp
  | cons kv rest ih =>
    intro acc h
    have hmem : kv.1 ∉ acc.map Prod.fst := by
      simp only [List.map_append, List.map_cons, List.nodup_append] at h
      intro hk
      exact h.2.2 hk (by simp)
    have hany : acc.any (fun p => p.1 == kv.1) = false := by
      simp only [List.any_eq_false]
      intro p hp
      have hne : p.1 ≠ kv.1 := by
        intro hpe
        exact hmem (hpe ▸ List.mem_map_of_mem Prod.fst hp)
      simpa using hne
    have hins : jsMapInsert acc kv.1 kv.2 = acc ++ [kv] := by
      simp [jsMapInsert, hany]
    rw [List.foldl_cons, hins, ih (acc ++ [kv]) (by simpa using h)]
    simp
lemma getAgent_bug : getAgent "bug" = some bugAgent := rfl

lemma getAgent_test : getAgent "test" = some testAgent := rfl

lemma getAgent_impact : getAgent "impact" = some impactAgent := rfl

lemma getAgent_quality : getAgent "quality" = some qualityAgent := rfl

lemma getAgent_isSome_cases (n : String) (h : (getAgent n).isSome = true) :
    n = "bug" ∨ n = "test" ∨ n = "impact" ∨ n = "quality" := by
  by_cases h1 : n = "bug"
  · exact Or.inl h1
  by_cases h2 : n = "test"
  · exact Or.inr (Or.inl h2)
  by_cases h3 : n = "impact"
  · exact Or.inr (Or.inr (Or.inl h3))
  by_cases h4 : n = "quality"
  · exact Or.inr (Or.inr (Or.inr h4))
  exfalso
  have e1 : ("bug" == n) = false := by simp [Ne.symm h1]
  have e2 : ("test" == n) = false := by simp [Ne.symm h2]
  have e3 : ("impact" == n) = false := by simp [Ne.symm h3]
  have e4 : ("quality" == n) = false := by simp [Ne.symm h4]
  simp [getAgent, AGENTS, List.find?, e1, e2, e3, e4] at h

lemma displayNameOf_inj (a b da : String)
    (ha : da ∈ displayNameOf a) (hb : da ∈ displayNameOf b) : a = b := by
  have hsa : (getAgent a).isSome = true := by
    rcases Option.mem_def.mp ha |> fun h => h with h
    simp only [displayNameOf] at h
    rcases Option.map_eq_some'.mp h with ⟨x, hx, _⟩
    simp [hx]
  have hsb : (getAgent b).isSome = true := by
    have h := Option.mem_def.mp hb
    simp only [displayNameOf] at h
    rcases Option.map_eq_some'.mp h with ⟨x, hx, _⟩
    simp [hx]
  have hma := Option.mem_def.mp ha
  have hmb := Option.mem_def.mp hb
  rcases getAgent_isSome_cases a hsa with rfl | rfl | rfl | rfl <;>
    rcases getAgent_isSome_cases b hsb with rfl | rfl | rfl | rfl <;>
    simp [displayNameOf, getAgent_bug, getAgent_test, getAgent_impact,
      getAgent_quality, bugAgent, testAgent, impactAgent, qualityAgent] at hma hmb <;>
    first
      | rfl
      | (exact absurd (hma ▸ hmb) (by decide))
lemma fanOutAux_cons_none (d c : String) (b : Nat → Except String (List String))
    (i : Nat) (name : String) (rest : List String) (hg : getAgent name = none) :
    fanOutAux d c b i (name :: rest) =
      TaskState.rejectedImmediately name (ReviewError.unknownAgent name) ::
        fanOutAux d c b (i + 1) rest := by
  simp [fanOutAux, hg]

lemma fanOutAux_cons_some (d c : String) (b : Nat → Except String (List String))
    (i : Nat) (name : String) (rest : List String) (a : AgentDefinition)
    (hg : getAgent name = some a) :
    fanOutAux d c b i (name :: rest) =
      TaskState.pending i name a.name (runSubAgent a d c (b i)).result ::
        fanOutAux d c b (i + 1) rest := by
  simp [fanOutAux, hg]

lemma immediateErrors_nil : immediateErrors [] = [] := rfl

lemma immediateErrors_cons_rejected (agentId : String) (e : ReviewError)
    (ts : List TaskState) :
    immediateErrors (TaskState.rejectedImmediately agentId e :: ts) =
      e :: immediateErrors ts := rfl

lemma immediateErrors_cons_pending (i : Nat) (agentId dn : String)
    (o : Except ReviewError String) (ts : List TaskState) :
    immediateErrors (TaskState.pending i agentId dn o :: ts) =
      immediateErrors ts := rfl

lemma pendingFailures_nil : pendingFailures [] = [] := rfl

lemma pendingFailures_cons_rejected (agentId : String) (e : ReviewError)
    (ts : List TaskState) :
    pendingFailures (TaskState.rejectedImmediately agentId e :: ts) =
      pendingFailures ts := rfl

lemma pendingFailures_cons_ok (i : Nat) (agentId dn r : String)
    (ts : List TaskState) :
    pendingFailures (TaskState.pending i agentId dn (Except.ok r) :: ts) =
      pendingFailures ts := rfl

lemma pendingFailures_cons_error (i : Nat) (agentId dn : String) (e : ReviewError)
    (ts : List TaskState) :
    pendingFailures (TaskState.pending i agentId dn (Except.error e) :: ts) =
      (i, e) :: pendingFailures ts := rfl

lemma okResults_nil : okResults [] = [] := rfl

lemma okResults_cons_rejected (agentId : String) (e : ReviewError)
    (ts : List TaskState) :
    okResults (TaskState.rejectedImmediately agentId e :: ts) = okResults ts := rfl

lemma okResults_cons_ok (i : Nat) (agentId dn r : String) (ts : List TaskState) :
    okResults (TaskState.pending i agentId dn (Except.ok r) :: ts) =
      (dn, r) :: okResults ts := rfl

lemma okResults_cons_error (i : Nat) (agentId dn : String) (e : ReviewError)
    (ts : List TaskState) :
    okResults (TaskState.pending i agentId dn (Except.error e) :: ts) =
      okResults ts := rfl

lemma startedAgents_nil : startedAgents [] = [] := rfl

lemma startedAgents_cons_rejected (agentId : String) (e : ReviewError)
    (ts : List TaskState) :
    startedAgents (TaskState.rejectedImmediately agentId e :: ts) =
      startedAgents ts := rfl

lemma startedAgents_cons_pending (i : Nat) (agentId dn : String)
    (o : Except ReviewError String) (ts : List TaskState) :
    startedAgents (TaskState.pending i agentId dn o :: ts) =
      agentId :: startedAgents ts := rfl

lemma runSubAgent_result_ok (a : AgentDefinition) (d c : String)
    (v : List String) :
    (runSubAgent a d c (Except.ok v)).result = Except.ok (concatList v) := rfl

lemma runSubAgent_result_error (a : AgentDefinition) (d c : String)
    (e : String) :
    (runSubAgent a d c (Except.error e)).result =
      Except.error (ReviewError.modelInvocationFailed e) := rfl

lemma fanOutAux_allOk (d c : String) (frags : Nat → List String) :
    ∀ (names : List String) (i : Nat), (∀ n ∈ names, (getAgent n).isSome = true) →
      immediateErrors (fanOutAux d c (fun j => .ok (frags j)) i names) = [] ∧
      pendingFailures (fanOutAux d c (fun j => .ok (frags j)) i names) = [] ∧
      okResults (fanOutAux d c (fun j => .ok (frags j)) i names) = requestOrderAux frags i names ∧
      startedAgents (fanOutAux d c (fun j => .ok (frags j)) i names) = names := by
  intro names
  induction names with
  | nil =>
    intro i _
    simp [fanOutAux, immediateErrors_nil, pendingFailures_nil, okResults_nil,
      startedAgents_nil, requestOrderAux]
  | cons name rest ih =>
    intro i h
    obtain ⟨a, ha⟩ := Option.isSome_iff_exists.mp (h name (by simp))
    obtain ⟨ih1, ih2, ih3, ih4⟩ := ih (i + 1) (fun n hn => h n (by simp [hn]))
    rw [fanOutAux_cons_some d c _ i name rest a ha, runSubAgent_result_ok,
      immediateErrors_cons_pending, pendingFailures_cons_ok, okResults_cons_ok,
      startedAgents_cons_pending, ih1, ih2, ih3, ih4]
    refine ⟨rfl, rfl, ?_, rfl⟩
    simp [requestOrderAux, ha]

lemma immediateErrors_fanOut_head (d c : String)
    (b : Nat → Except String (List String)) :
    ∀ (names : List String) (i : Nat),
      (immediateErrors (fanOutAux d c b i names)).head? =
        (names.find? (fun n => (getAgent n).isNone)).map ReviewError.unknownAgent := by
  intro names
  induction names with
  | nil => intro i; simp [fanOutAux, immediateErrors_nil]
  | cons name rest ih =>
    intro i
    cases hg : getAgent name with
    | none =>
      rw [fanOutAux_cons_none d c b i name rest hg, immediateErrors_cons_rejected,
        List.find?_cons_of_pos _ (by simp [hg])]
      simp
    | some a =>
      rw [fanOutAux_cons_some d c b i name rest a hg, immediateErrors_cons_pending,
        List.find?_cons_of_neg _ (by simp [hg]), ih (i + 1)]

lemma startedAgents_fanOut (d c : String) (b : Nat → Except String (List String)) :
    ∀ (names : List String) (i : Nat),
      startedAgents (fanOutAux d c b i names) =
        names.filter (fun n => (getAgent n).isSome) := by
  intro names
  induction names with
  | nil => intro i; simp [fanOutAux, startedAgents_nil]
  | cons name rest ih =>
    intro i
    cases hg : getAgent name with
    | none =>
      rw [fanOutAux_cons_none d c b i name rest hg, startedAgents_cons_rejected,
        ih (i + 1)]
      simp [List.filter_cons, hg]
    | some a =>
      rw [fanOutAux_cons_some d c b i name rest a hg, startedAgents_cons_pending,
        ih (i + 1)]
      simp [List.filter_cons, hg]

lemma pendingFailures_fanOut_nil (d c : String)
    (b : Nat → Except String (List String)) :
    ∀ (names : List String) (k : Nat), (∀ j, k ≤ j → ∃ v, b j = Except.ok v) →
      pendingFailures (fanOutAux d c b k names) = [] := by
  intro names
  induction names with
  | nil => intro k _; simp [fanOutAux, pendingFailures_nil]
  | cons name rest ih =>
    intro k h
    have ihr := ih (k + 1) (fun j hj => h j (by omega))
    cases hg : getAgent name with
    | none =>
      rw [fanOutAux_cons_none d c b k name rest hg, pendingFailures_cons_rejected, ihr]
    | some a =>
      obtain ⟨v, hv⟩ := h k le_rfl
      rw [fanOutAux_cons_some d c b k name rest a hg, hv, runSubAgent_result_ok,
        pendingFailures_cons_ok, ihr]

lemma pendingFailures_fanOut_single (d c : String)
    (b : Nat → Except String (List String)) (i : Nat) (e : String)
    (hfail : b i = Except.error e)
    (hothers : ∀ j, j ≠ i → ∃ v, b j = Except.ok v) :
    ∀ (names : List String) (k : Nat), k ≤ i → i < k + names.length →
      (∀ n ∈ names, (getAgent n).isSome = true) →
      pendingFailures (fanOutAux d c b k names) =
        [(i, ReviewError.modelInvocationFailed e)] := by
  intro names
  induction names with
  | nil => intro k hk hlt _; simp at hlt; omega
  | cons name rest ih =>
    intro k hk hlt h
    obtain ⟨a, ha⟩ := Option.isSome_iff_exists.mp (h name (by simp))
    by_cases hki : k = i
    · subst hki
      rw [fanOutAux_cons_some d c b k name rest a ha, hfail, runSubAgent_result_error,
        pendingFailures_cons_error,
        pendingFailures_fanOut_nil d c b rest (k + 1)
          (fun j hj => hothers j (by omega))]
    · have hk1 : k + 1 ≤ i := by omega
      obtain ⟨v, hv⟩ := hothers k (by omega)
      rw [fanOutAux_cons_some d c b k name rest a ha, hv, runSubAgent_result_ok,
        pendingFailures_cons_ok]
      exact ih (k + 1) hk1 (by simp at hlt; omega) (fun n hn => h n (by simp [hn]))
lemma requestOrderAux_keys (frags : Nat → List String) :
    ∀ (names : List String) (i : Nat),
      (requestOrderAux frags i names).map Prod.fst = names.filterMap displayNameOf := by
  intro names
  induction names with
  | nil => intro i; simp [requestOrderAux]
  | cons name rest ih =>
    intro i
    cases hg : getAgent name with
    | none => simp [requestOrderAux, hg, displayNameOf, List.filterMap_cons, ih (i + 1)]
    | some a => simp [requestOrderAux, hg, displayNameOf, List.filterMap_cons, ih (i + 1)]

lemma nodup_displayNames (names : List String) (hnd : names.Nodup) :
    (names.filterMap displayNameOf).Nodup :=
  hnd.filterMap (fun a a' da ha ha' => displayNameOf_inj a a' da ha ha')

lemma okResults_fanOut (d c : String) (b : Nat → Except String (List String)) :
    ∀ (names : List String) (k : Nat), (∀ n ∈ names, (getAgent n).isSome = true) →
      pendingFailures (fanOutAux d c b k names) = [] →
      (okResults (fanOutAux d c b k names)).map Prod.fst = names.filterMap displayNameOf ∧
      (okResults (fanOutAux d c b k names)).length = names.length := by
  intro names
  induction names with
  | nil => intro k _ _; simp [fanOutAux, okResults_nil]
  | cons name rest ih =>
    intro k h hpf
    obtain ⟨a, ha⟩ := Option.isSome_iff_exists.mp (h name (by simp))
    cases hb : b k with
    | error e =>
      rw [fanOutAux_cons_some d c b k name rest a ha, hb, runSubAgent_result_error,
        pendingFailures_cons_error] at hpf
      exact absurd hpf (by simp)
    | ok v =>
      rw [fanOutAux_cons_some d c b k name rest a ha, hb, runSubAgent_result_ok,
        pendingFailures_cons_ok] at hpf
      obtain ⟨ih1, ih2⟩ := ih (k + 1) (fun n hn => h n (by simp [hn])) hpf
      rw [fanOutAux_cons_some d c b k name rest a ha, hb, runSubAgent_result_ok,
        okResults_cons_ok]
      constructor
      · simp [List.filterMap_cons, displayNameOf, ha, ih1]
      · simp [ih2]

lemma earliestFailure_eq_none (p : Nat → Nat) :
    ∀ (l : List (Nat × ReviewError)), earliestFailure p l = none → l = [] := by
  intro l h
  cases l with
  | nil => rfl
  | cons f rest =>
    exfalso
    simp only [earliestFailure] at h
    rcases hr : earliestFailure p rest with _ | g <;> rw [hr] at h <;> simp at h
    split at h <;> simp at h

lemma earliestFailure_single (p : Nat → Nat) (f : Nat × ReviewError) :
    earliestFailure p [f] = some f := rfl

lemma immediateErrors_fanOut_nil (d c : String)
    (b : Nat → Except String (List String)) (names : List String) (i : Nat)
    (h : ∀ n ∈ names, (getAgent n).isSome = true) :
    immediateErrors (fanOutAux d c b i names) = [] := by
  have hh := immediateErrors_fanOut_head d c b names i
  have hf : names.find? (fun n => (getAgent n).isNone) = none := by
    apply List.find?_eq_none.mpr
    intro n hn
    simp [Option.isNone_iff_eq_none]
    exact Option.isSome_iff_ne_none.mp (h n hn)
  rw [hf] at hh
  simpa using hh
lemma jsMapOfList_nodup (l : List (String × String))
    (h : (l.map Prod.fst).Nodup) : jsMapOfList l = l := by
  have := jsMapOfList_aux l [] (by simpa using h)
  simpa [jsMapOfList] using this

/-- Claim C1: for every review request whose selected agent ids are all
registered (and, per the data model, duplicate-free) and whose agent tasks
all succeed, the Report Collection that runReview passes to the Synthesis
Stage is exactly one entry per selected agent, iterating in
`selectedAgentIds` order — for every possible completion order `priority`
of the concurrent tasks. -/
theorem runReview_collection_request_order
    (agentNames : List String) (diff additionalContext : String)
    (frags : Nat → List String) (priority : Nat → Nat)
    (hreg : ∀ n ∈ agentNames, (getAgent n).isSome = true)
    (hnd : agentNames.Nodup) :
    (runReview agentNames diff additionalContext (Except.ok ())
        (fun j => Except.ok (frags j)) priority).result =
      Except.ok
        { diff := diff
          reports := requestOrderReports frags agentNames
          prompt := summarizerPrompt diff (requestOrderReports frags agentNames) } := by
  obtain ⟨h1, h2, h3, _⟩ :=
    fanOutAux_allOk diff additionalContext frags agentNames 0 hreg
  have hkeys : ((requestOrderAux frags 0 agentNames).map Prod.fst).Nodup := by
    rw [requestOrderAux_keys]
    exact nodup_displayNames agentNames hnd
  simp only [runReview, promiseAll, h1, h2, h3, List.head?_nil, earliestFailure,
    jsMapOfList_nodup _ hkeys, requestOrderReports]

/-- Claim C2: if any one of the N concurrent agent tasks fails, runReview
rejects with that task's error; no SummarizerCall is produced, so the
Synthesis Stage is never invoked and no collection built from a strict
subset of the selected agents is ever consumed — reports of tasks that
already succeeded are discarded. -/
theorem runReview_failfast
    (agentNames : List String) (diff additionalContext : String)
    (behaviors : Nat → Except String (List String)) (priority : Nat → Nat)
    (i : Nat) (e : String)
    (hreg : ∀ n ∈ agentNames, (getAgent n).isSome = true)
    (hi : i < agentNames.length)
    (hfail : behaviors i = Except.error e)
    (hothers : ∀ j, j ≠ i → ∃ v, behaviors j = Except.ok v) :
    (runReview agentNames diff additionalContext (Except.ok ()) behaviors priority).result =
      Except.error (ReviewError.modelInvocationFailed e) := by
  have h1 := immediateErrors_fanOut_nil diff additionalContext behaviors agentNames 0 hreg
  have h2 := pendingFailures_fanOut_single diff additionalContext behaviors i e hfail
    hothers agentNames 0 (by omega) (by omega) hreg
  simp only [runReview, promiseAll, h1, h2, List.head?_nil, earliestFailure]

/-- Claim C6 (amended): when a selected id is not registered, runReview
rejects with the unknown-agent error for the first such id, but the check
runs inside each concurrent task rather than before fan-out: conversation
sessions are started for exactly the registered selected ids. -/
theorem runReview_unknown_agent_inside_tasks
    (agentNames : List String) (diff additionalContext : String)
    (behaviors : Nat → Except String (List String)) (priority : Nat → Nat)
    (m : String)
    (hfind : agentNames.find? (fun n => (getAgent n).isNone) = some m) :
    (runReview agentNames diff additionalContext (Except.ok ()) behaviors priority).result =
      Except.error (ReviewError.unknownAgent m) ∧
    (runReview agentNames diff additionalContext (Except.ok ()) behaviors priority).startedSessions =
      agentNames.filter (fun n => (getAgent n).isSome) := by
  have hh := immediateErrors_fanOut_head diff additionalContext behaviors agentNames 0
  rw [hfind] at hh
  have hs := startedAgents_fanOut diff additionalContext behaviors agentNames 0
  simp only [runReview, promiseAll, hh, hs, Option.map_some']
  exact ⟨trivial, trivial⟩
/-- Claim C8: whenever runReview succeeds in handing a SummarizerCall to the
Synthesis Stage, the Report Collection's size equals the number of selected
agents; in every other case the whole review has failed and no collection
is consumed downstream. -/
theorem runReview_collection_size
    (agentNames : List String) (diff additionalContext : String)
    (behaviors : Nat → Except String (List String)) (priority : Nat → Nat)
    (call : SummarizerCall)
    (hnd : agentNames.Nodup)
    (hok : (runReview agentNames diff additionalContext (Except.ok ()) behaviors
        priority).result = Except.ok call) :
    call.reports.length = agentNames.length := by
  simp only [runReview] at hok
  cases him : (immediateErrors (fanOutAux diff additionalContext behaviors 0 agentNames)).head? with
  | some e => simp [promiseAll, him] at hok
  | none =>
    cases hef : earliestFailure priority
        (pendingFailures (fanOutAux diff additionalContext behaviors 0 agentNames)) with
    | some f => simp [promiseAll, him, hef] at hok
    | none =>
      have hpf := earliestFailure_eq_none priority _ hef
      have hreg : ∀ n ∈ agentNames, (getAgent n).isSome = true := by
        have hh := immediateErrors_fanOut_head diff additionalContext behaviors agentNames 0
        rw [him] at hh
        have hfind : agentNames.find? (fun n => (getAgent n).isNone) = none := by
          cases hf : agentNames.find? (fun n => (getAgent n).isNone) with
          | none => rfl
          | some x => rw [hf] at hh; simp at hh
        intro n hn
        have := List.find?_eq_none.mp hfind n hn
        simpa [Option.isNone_iff_eq_none, Option.isSome_iff_ne_none] using this
      obtain ⟨hkeys, hlen⟩ := okResults_fanOut diff additionalContext behaviors
        agentNames 0 hreg hpf
      simp only [promiseAll, him, hef] at hok
      have hcall : call.reports =
          jsMapOfList (okResults (fanOutAux diff additionalContext behaviors 0 agentNames)) := by
        have := Except.ok.inj hok
        rw [← this]
      rw [hcall, jsMapOfList_nodup _ (hkeys ▸ nodup_displayNames agentNames hnd), hlen]

/-- Counterexample to claim C5: for the request with selectedAgentIds
["bug", "quality"] the Report Collection keys are the display names
["Bug Hunter", "Code Quality"], not the agent ids ["bug", "quality"] —
review.ts line 318 keys the results by `agent.name`. -/
theorem summarizer_prompt_not_id_keys :
    (runReview ["bug", "quality"] "d" "" (Except.ok ()) (fun _ => Except.ok ["r"])
        (fun i => i)).result.toOption.map (fun call => call.reports.map Prod.fst) =
      some ["Bug Hunter", "Code Quality"] ∧
    some ["Bug Hunter", "Code Quality"] ≠ some ["bug", "quality"] := by
  exact ⟨by decide, by decide⟩

/-- Claim C5 (amended): the synthesis prompt contains the diff first,
followed by each report in Report Collection order, each section labeled
`## name` by the agent display name (not the agent id); for selectedAgentIds
["bug", "quality"] the collection keys are ["Bug Hunter", "Code Quality"]
and the Bug Hunter section precedes the Code Quality section. -/
theorem summarizer_prompt_labels_display_names :
    (∀ (diff : String) (reports : List (String × String)),
        summarizerPrompt diff reports =
          "Here is the git diff:\n\n```diff\n" ++ diff ++ "\n```\n\n" ++
            "Here are the individual review reports:\n\n" ++
            concatList (reports.map
              (fun nr => "## " ++ nr.1 ++ "\n\n" ++ nr.2 ++ "\n\n---\n\n"))) ∧
    (∀ (diff r1 r2 : String) (priority : Nat → Nat),
        (runReview ["bug", "quality"] diff "" (Except.ok ())
              (fun j => Except.ok (if j = 0 then [r1] else [r2])) priority).result.toOption.map
            (fun call => (call.reports.map Prod.fst, call.prompt)) =
          some (["Bug Hunter", "Code Quality"],
            summarizerPrompt diff
              [("Bug Hunter", concatList [r1]), ("Code Quality", concatList [r2])])) := by
  constructor
  · intro diff reports
    rw [summarizerPrompt, foldl_append_sections]
  · intro diff r1 r2 priority
    obtain ⟨h1, h2, h3, _⟩ :=
      fanOutAux_allOk diff "" (fun j => if j = 0 then [r1] else [r2])
        ["bug", "quality"] 0 (by decide)
    have hro : requestOrderAux (fun j => if j = 0 then [r1] else [r2]) 0 ["bug", "quality"] =
        [("Bug Hunter", concatList [r1]), ("Code Quality", concatList [r2])] := by
      simp [requestOrderAux, getAgent_bug, getAgent_quality, bugAgent, qualityAgent]
    rw [hro] at h3
    have hjm : jsMapOfList [("Bug Hunter", concatList [r1]), ("Code Quality", concatList [r2])] =
        [("Bug Hunter", concatList [r1]), ("Code Quality", concatList [r2])] :=
      jsMapOfList_nodup _ (by simp)
    simp only [runReview, promiseAll, h1, h2, h3, List.head?_nil, earliestFailure, hjm]
    simp [Except.toOption]
/-- Counterexample to claim C6: for the request ["bug", "nope"] runReview
raises the unknown-agent error, yet a conversation session has already been
started for the registered agent "bug" — not the claimed
no-session-started-for-any-selected-agent behaviour. -/
theorem runReview_unknown_agent_starts_sessions :
    (runReview ["bug", "nope"] "d" "" (Except.ok ()) (fun _ => Except.ok ["r"])
        (fun i => i)).result = Except.error (ReviewError.unknownAgent "nope") ∧
    (runReview ["bug", "nope"] "d" "" (Except.ok ()) (fun _ => Except.ok ["r"])
        (fun i => i)).startedSessions = ["bug"] ∧
    ["bug"] ≠ ([] : List String) := by
  exact ⟨by decide, by decide, by decide⟩

/-- Claim C3: runSummarizer writes the well-known session pointer — by
copying the internal session backing file — only after the synthesis prompt
turn completes successfully; when the turn fails with a model-invocation
error, the error propagates and the pointer file is left exactly as it was
before the run. -/
theorem runSummarizer_promotes_only_on_success
    (fs0 : FS) (diff : String) (reports : List (String × String))
    (env : SummarizerEnv) (hne : env.originalFile ≠ some SESSION_FILE) :
    (∀ e, env.promptOutcome = Except.error e →
        (runSummarizer fs0 diff reports env).result =
          Except.error (ReviewError.modelInvocationFailed e) ∧
        (runSummarizer fs0 diff reports env).fs SESSION_FILE = fs0 SESSION_FILE) ∧
    ((runSummarizer fs0 diff reports env).fs SESSION_FILE ≠ fs0 SESSION_FILE →
        ∃ r, env.promptOutcome = Except.ok r) ∧
    (∀ p r, env.originalFile = some p → env.promptOutcome = Except.ok r →
        env.backingAfter.isSome = true →
        (runSummarizer fs0 diff reports env).fs SESSION_FILE = env.backingAfter) := by
  obtain ⟨of, po, ba⟩ := env
  refine ⟨?_, ?_, ?_⟩
  · intro e he
    subst he
    cases of with
    | none => simp [runSummarizer]
    | some p =>
      have hp : SESSION_FILE ≠ p := by
        intro h
        exact hne (by simp [← h])
      simp [runSummarizer, setFile, hp]
  · intro hchanged
    cases po with
    | error e =>
      exfalso
      apply hchanged
      cases of with
      | none => simp [runSummarizer]
      | some p =>
        have hp : SESSION_FILE ≠ p := by
          intro h
          exact hne (by simp [← h])
        simp [runSummarizer, setFile, hp]
    | ok r => exact ⟨r, rfl⟩
  · intro p r hof hpo hba
    subst hof
    subst hpo
    have hp : SESSION_FILE ≠ p := by
      intro h
      exact hne (by simp [← h])
    simp [runSummarizer, setFile, hp, hba]

/-- Claim C10: if, after a successful synthesis turn, the session manager
reports no backing file path or the backing file does not exist on disk,
runSummarizer returns success without writing the well-known pointer and
without raising any error, leaving any prior last-session file unchanged. -/
theorem runSummarizer_skips_promotion
    (fs0 : FS) (diff : String) (reports : List (String × String))
    (env : SummarizerEnv) (r : String)
    (hok : env.promptOutcome = Except.ok r)
    (hskip : env.originalFile = none ∨ env.backingAfter = none)
    (hne : env.originalFile ≠ some SESSION_FILE) :
    (runSummarizer fs0 diff reports env).result = Except.ok () ∧
    (runSummarizer fs0 diff reports env).fs SESSION_FILE = fs0 SESSION_FILE := by
  obtain ⟨of, po, ba⟩ := env
  simp only at hok hskip hne
  subst hok
  cases of with
  | none => simp [runSummarizer]
  | some p =>
    have hp : SESSION_FILE ≠ p := by
      intro h
      exact hne (by simp [← h])
    rcases hskip with h | h
    · exact absurd h (by simp)
    · subst h
      simp [runSummarizer, setFile, hp]
/-- Claim C4: continueReview fails with the no-previous-session error — and
sends no prompt — precisely when the well-known pointer file is absent; when
the pointer exists that error is never raised and the continuation proceeds,
completing successfully whenever model resolution and the prompt turn
succeed. -/
theorem continueReview_requires_pointer
    (fs0 : FS) (message : String) (env : ContinueEnv) :
    (fs0 SESSION_FILE = none →
        (continueReview fs0 message env).result = Except.error ReviewError.noPreviousSession ∧
        (continueReview fs0 message env).promptsSent = []) ∧
    (∀ log, fs0 SESSION_FILE = some log →
        (continueReview fs0 message env).result ≠ Except.error ReviewError.noPreviousSession) ∧
    (∀ log r, fs0 SESSION_FILE = some log → env.modelResolution = Except.ok () →
        env.promptOutcome = Except.ok r →
        (continueReview fs0 message env).result = Except.ok ()) := by
  obtain ⟨mr, po⟩ := env
  refine ⟨?_, ?_, ?_⟩
  · intro h
    simp [continueReview, h]
  · intro log h
    cases mr with
    | error e => simp [continueReview, h]
    | ok u =>
      cases po with
      | error e => simp [continueReview, h]
      | ok r => simp [continueReview, h]
  · intro log r h hmr hpo
    simp only at hmr hpo
    subst hmr
    subst hpo
    simp [continueReview, h]

lemma continueReview_ok (fs0 : FS) (log : SessionLog) (m r : String)
    (h0 : fs0 SESSION_FILE = some log) :
    continueReview fs0 m ⟨Except.ok (), Except.ok r⟩ =
      { fs := setFile fs0 SESSION_FILE (some (log ++ [⟨m, r⟩]))
        promptsSent := [m], result := Except.ok () } := by
  simp [continueReview, h0]

/-- Claim C9: a successful continueReview opens the durable conversation
directly at the well-known pointer and appends its completed exchange in
place to that same file, with no copy or promotion step afterward: two
successive continuation calls each grow the persisted log by exactly one
turn, preserve all prior turns, and leave every other path untouched. -/
theorem continueReview_appends_in_place
    (fs0 : FS) (log : SessionLog) (m1 r1 m2 r2 : String)
    (h0 : fs0 SESSION_FILE = some log) :
    (continueReview fs0 m1 ⟨Except.ok (), Except.ok r1⟩).result = Except.ok () ∧
    (continueReview fs0 m1 ⟨Except.ok (), Except.ok r1⟩).fs SESSION_FILE =
      some (log ++ [⟨m1, r1⟩]) ∧
    (continueReview (continueReview fs0 m1 ⟨Except.ok (), Except.ok r1⟩).fs m2
        ⟨Except.ok (), Except.ok r2⟩).result = Except.ok () ∧
    (continueReview (continueReview fs0 m1 ⟨Except.ok (), Except.ok r1⟩).fs m2
        ⟨Except.ok (), Except.ok r2⟩).fs SESSION_FILE =
      some ((log ++ [⟨m1, r1⟩]) ++ [⟨m2, r2⟩]) ∧
    (∀ q, q ≠ SESSION_FILE →
        (continueReview fs0 m1 ⟨Except.ok (), Except.ok r1⟩).fs q = fs0 q ∧
        (continueReview (continueReview fs0 m1 ⟨Except.ok (), Except.ok r1⟩).fs m2
            ⟨Except.ok (), Except.ok r2⟩).fs q =
          (continueReview fs0 m1 ⟨Except.ok (), Except.ok r1⟩).fs q) := by
  have e1 := continueReview_ok fs0 log m1 r1 h0
  have h1 : (setFile fs0 SESSION_FILE (some (log ++ [⟨m1, r1⟩]))) SESSION_FILE =
      some (log ++ [⟨m1, r1⟩]) := by simp [setFile]
  have e2 := continueReview_ok (setFile fs0 SESSION_FILE (some (log ++ [⟨m1, r1⟩])))
    (log ++ [⟨m1, r1⟩]) m2 r2 h1
  refine ⟨?_, ?_, ?_, ?_, ?_⟩
  · simp [e1]
  · simp [e1, h1]
  · simp [e1, e2]
  · simp [e1, e2, setFile]
  · intro q hq
    constructor
    · simp [e1, setFile, hq]
    · simp [e1, e2, setFile, hq]

/-- Claim C7: the single user prompt an agent task sends is the diff fenced
as a diff code block; when the extra context is empty the prompt is exactly
the fenced diff with nothing appended, and when it is non-empty a delimited
additional-context section follows the diff block. -/
theorem runSubAgent_prompt_shape
    (agent : AgentDefinition) (diff additionalContext : String)
    (behavior : Except String (List String)) :
    (additionalContext = "" →
        (runSubAgent agent diff additionalContext behavior).promptSent =
          "Here is the git diff to review:\n\n```diff\n" ++ diff ++ "\n```") ∧
    (additionalContext ≠ "" →
        (runSubAgent agent diff additionalContext behavior).promptSent =
          "Here is the git diff to review:\n\n```diff\n" ++ diff ++ "\n```" ++
            "\n\nAdditional context from the reviewer:\n" ++ additionalContext) := by
  constructor
  · intro h
    simp [runSubAgent, subAgentPrompt, h]
  · intro h
    simp [runSubAgent, subAgentPrompt, h]
/-- Witness for claim C1 at a concrete two-agent request whose completion
order is reversed relative to the request order. -/
theorem runReview_collection_request_order_witness :
    (runReview ["bug", "quality"] "d" "" (Except.ok ())
        (fun j => Except.ok ((fun _ => ["x"]) j)) (fun i => 5 - i)).result =
      Except.ok
        { diff := "d"
          reports := requestOrderReports (fun _ => ["x"]) ["bug", "quality"]
          prompt := summarizerPrompt "d"
            (requestOrderReports (fun _ => ["x"]) ["bug", "quality"]) } :=
  runReview_collection_request_order ["bug", "quality"] "d" "" (fun _ => ["x"])
    (fun i => 5 - i) (by decide) (by decide)

/-- Witness for claim C2: the second of two agent tasks fails and runReview
rejects with its error. -/
theorem runReview_failfast_witness :
    (runReview ["bug", "quality"] "d" "" (Except.ok ())
        (fun j => if j = 1 then Except.error "boom" else Except.ok ["x"])
        (fun i => i)).result =
      Except.error (ReviewError.modelInvocationFailed "boom") :=
  runReview_failfast ["bug", "quality"] "d" ""
    (fun j => if j = 1 then Except.error "boom" else Except.ok ["x"]) (fun i => i)
    1 "boom" (by decide) (by decide) (by simp) (fun j hj => ⟨["x"], by simp [hj]⟩)

/-- Witness for claim C3: a failing synthesis turn propagates its error and
leaves the absent pointer file absent. -/
theorem runSummarizer_promotes_only_on_success_witness :
    (runSummarizer (fun _ => none) "d" []
        ⟨some "~/.cache/pr-review/s1.jsonl", Except.error "boom", none⟩).result =
      Except.error (ReviewError.modelInvocationFailed "boom") ∧
    (runSummarizer (fun _ => none) "d" []
        ⟨some "~/.cache/pr-review/s1.jsonl", Except.error "boom", none⟩).fs SESSION_FILE =
      none :=
  (runSummarizer_promotes_only_on_success (fun _ => none) "d" []
    ⟨some "~/.cache/pr-review/s1.jsonl", Except.error "boom", none⟩ (by decide)).1
    "boom" rfl

/-- Witness for claim C4: continuation against an empty filesystem fails
with the no-previous-session error, with no prompt sent. -/
theorem continueReview_requires_pointer_witness :
    (continueReview (fun _ => none) "m" ⟨Except.ok (), Except.ok "r"⟩).result =
      Except.error ReviewError.noPreviousSession ∧
    (continueReview (fun _ => none) "m" ⟨Except.ok (), Except.ok "r"⟩).promptsSent = [] :=
  (continueReview_requires_pointer (fun _ => none) "m" ⟨Except.ok (), Except.ok "r"⟩).1 rfl

/-- Witness for claim C6 (amended) at a request mixing registered and
unregistered ids. -/
theorem runReview_unknown_agent_inside_tasks_witness :
    (runReview ["bug", "nope", "quality"] "d" "" (Except.ok ())
        (fun _ => Except.ok ["x"]) (fun i => i)).result =
      Except.error (ReviewError.unknownAgent "nope") ∧
    (runReview ["bug", "nope", "quality"] "d" "" (Except.ok ())
        (fun _ => Except.ok ["x"]) (fun i => i)).startedSessions =
      List.filter (fun n => (getAgent n).isSome) ["bug", "nope", "quality"] :=
  runReview_unknown_agent_inside_tasks ["bug", "nope", "quality"] "d" ""
    (fun _ => Except.ok ["x"]) (fun i => i) "nope" (by decide)

/-- Witness for claim C7: with empty extra context the prompt is exactly the
fenced diff. -/
theorem runSubAgent_prompt_shape_witness :
    (runSubAgent bugAgent "d" "" (Except.ok [])).promptSent =
      "Here is the git diff to review:\n\n```diff\n" ++ "d" ++ "\n```" :=
  (runSubAgent_prompt_shape bugAgent "d" "" (Except.ok [])).1 rfl

/-- Witness for claim C8 at a concrete single-agent request. -/
theorem runReview_collection_size_witness :
    (⟨"d", [("Bug Hunter", concatList ["x"])],
        summarizerPrompt "d" [("Bug Hunter", concatList ["x"])]⟩ : SummarizerCall).reports.length =
      (["bug"] : List String).length :=
  runReview_collection_size ["bug"] "d" "" (fun _ => Except.ok ["x"]) (fun i => i)
    ⟨"d", [("Bug Hunter", concatList ["x"])],
      summarizerPrompt "d" [("Bug Hunter", concatList ["x"])]⟩ (by decide) rfl

/-- Witness for claim C9: two continuations on a concrete filesystem leave
the pointer file holding the two appended turns. -/
theorem continueReview_appends_in_place_witness :
    (continueReview
        (continueReview (fun q => if q = SESSION_FILE then some [] else none) "m1"
          ⟨Except.ok (), Except.ok "r1"⟩).fs "m2"
        ⟨Except.ok (), Except.ok "r2"⟩).fs SESSION_FILE =
      some (([] ++ [⟨"m1", "r1"⟩]) ++ [⟨"m2", "r2"⟩]) :=
  (continueReview_appends_in_place (fun q => if q = SESSION_FILE then some [] else none)
    [] "m1" "r1" "m2" "r2" (by simp)).2.2.2.1

/-- Witness for claim C10: a successful turn with no reported backing path
skips the promotion silently. -/
theorem runSummarizer_skips_promotion_witness :
    (runSummarizer (fun _ => none) "d" [] ⟨none, Except.ok "r", none⟩).result =
      Except.ok () ∧
    (runSummarizer (fun _ => none) "d" [] ⟨none, Except.ok "r", none⟩).fs SESSION_FILE =
      none :=
  runSummarizer_skips_promotion (fun _ => none) "d" [] ⟨none, Except.ok "r", none⟩ "r"
    rfl (Or.inl rfl) (by decide)

end PrReview
